import Mathlib

/-!
Verification of the multi-tier blob store (`BsMulti`, `src/bs-multi.ts`) of
the `@rljson/bs` package, as a shallow embedding in Lean.

Strings model JavaScript strings, `Nat` models non-negative sizes and
timestamps, `Int` models the `priority` numbers, `Option` models
`T | undefined`, and `Except Err` models promise rejection with an `Error`
carrying a message.  The asynchronous methods of `BsMulti` are embedded as
pure state-passing functions: an operation takes the binding sequence
(`_stores`) and returns either an error or the updated sequence together
with the caller-visible result.  Parallel write fan-out is modelled by
applying each independent per-store effect to its own binding; `Promise.all`
surfacing a rejection is modelled by the first error in list order (the
spec leaves simultaneous-failure tie-breaks implementation defined).
-/

namespace Bs

/-- `BlobProperties` of `src/bs.ts`: blobId (content digest), byte size,
and creation timestamp (modelled as a `Nat`). -/
structure BlobProperties where
  blobId : String
  size : Nat
  createdAt : Nat
deriving DecidableEq, Repr

/-- A JavaScript `Error`, reduced to the only observable `BsMulti` ever
inspects: its `message`. -/
structure Err where
  message : String
deriving DecidableEq, Repr

/-- Blob content.  Streams and Buffers are modelled by their byte string. -/
abbrev Content := String

/-- `s.includes(pat)`: `pat` occurs as a contiguous substring of `s`. -/
def containsSubstr (s pat : String) : Bool :=
  (List.range (s.length + 1)).any (fun i => ((s.drop i).take pat.length) == pat)

/-- The check `err.message.includes('Blob not found')` used by `BsMulti`'s
error reconciliation. -/
def isNotFoundMsg (e : Err) : Bool :=
  containsSubstr e.message "Blob not found"

/-- Modelled from the spec: the content digest (`BlobId`) of §3 — SHA256 in
the implementation, modelled as an injective deterministic function of the
content.  The digest routine lives in `bs-mem.ts`, which is not part of the
provided sources. -/
def blobIdOf (c : Content) : String :=
  "sha256-" ++ c

deriving instance DecidableEq for Except

/-- The byte range of `DownloadBlobOptions` (`src/bs.ts`): `start`, and an
optional exclusive upper bound (`end` in the source; the conformance test
fetches `start 2, end 5` from `0123456789` and receives `234`). -/
structure ByteRange where
  start : Nat
  stop : Option Nat
deriving DecidableEq, Repr

/-- `DownloadBlobOptions` of `src/bs.ts`: an optional byte range.  The
whole argument is optional in the source (`options?`), modelled by
`Option DownloadBlobOptions`. -/
structure DownloadBlobOptions where
  range : Option ByteRange
deriving DecidableEq, Repr

/-- Modelled from the spec and conformance tests: the slice a ranged fetch
delivers — `content.slice(start, end)` with an exclusive, length-defaulted
`end` (the slicing lives in `bs-mem.ts`, which is not among the provided
sources; a range outside the content length is a caller error per §4.1 and
is clamped here). -/
def applyRange (c : Content) (opts : Option DownloadBlobOptions) : Content :=
  match opts with
  | none => c
  | some o =>
    match o.range with
    | none => c
    | some r => (c.drop r.start).take (r.stop.getD c.length - r.start)

/-- One page answer of a `ContentStore.list` call:  either a rejection or a
list of items plus an optional continuation token. -/
abbrev Page := Except Err (List BlobProperties × Option String)

/-- Modelled from the spec: a single underlying `ContentStore` (§4.1; the
reference implementation `bs-mem.ts` is not among the provided sources).
`blobs` is the content-addressed pool (blobId ↦ content).  `getErr` and
`setErr` are fault injection: when set, the corresponding operations reject
with that error, modelling arbitrary tier failures ("TierFailure" in §7).
`listScript` gives the store's successive answers to `listBlobs` calls of
one `BsMulti.listBlobs` collection loop, modelling an external paginated
listing that may fail at any page. -/
structure Store where
  blobs : List (String × Content)
  createdAt : Nat
  getErr : Option Err
  setErr : Option Err
  listScript : List Page
deriving DecidableEq, Repr

namespace Store

/-- Content stored under `blobId`, if any. -/
def lookup (s : Store) (blobId : String) : Option Content :=
  (s.blobs.find? (fun p => p.1 == blobId)).map (fun p => p.2)

/-- Properties reported for a stored blob. -/
def propsOf (s : Store) (blobId : String) (c : Content) : BlobProperties :=
  { blobId := blobId, size := c.length, createdAt := s.createdAt }

/-- Modelled from the spec: `fetch(blobId, [byteRange])` of §4.1 —
`NotFound` when absent, the optional byte range applied to the delivered
content, plus injected tier failure.  The reported properties describe the
stored blob. -/
def getBlob (s : Store) (blobId : String) (opts : Option DownloadBlobOptions) :
    Except Err (Content × BlobProperties) :=
  match s.getErr with
  | some e => .error e
  | none =>
    match s.lookup blobId with
    | some c => .ok (applyRange c opts, s.propsOf blobId c)
    | none => .error (Err.mk ("Blob not found: " ++ blobId))

/-- Modelled from the spec: `fetchStream(blobId)` of §4.1; the stream is
modelled by the content it delivers. -/
def getBlobStream (s : Store) (blobId : String) : Except Err Content :=
  match s.getErr with
  | some e => .error e
  | none =>
    match s.lookup blobId with
    | some c => .ok c
    | none => .error (Err.mk ("Blob not found: " ++ blobId))

/-- Modelled from the spec: `store(content)` of §4.1 — idempotent,
content-addressed, plus injected tier failure. -/
def setBlob (s : Store) (c : Content) : Except Err (Store × BlobProperties) :=
  match s.setErr with
  | some e => .error e
  | none =>
    let bid := blobIdOf c
    match s.lookup bid with
    | some c0 => .ok (s, s.propsOf bid c0)
    | none => .ok ({ s with blobs := s.blobs ++ [(bid, c)] }, s.propsOf bid c)

/-- Modelled from the spec: `exists(blobId)` of §4.1, with injected
transport failure (the multi-tier `blobExists` swallows such errors). -/
def blobExistsE (s : Store) (blobId : String) : Except Err Bool :=
  match s.getErr with
  | some e => .error e
  | none => .ok ((s.lookup blobId).isSome)

/-- Pure existence check (used to state post-conditions). -/
def blobExists (s : Store) (blobId : String) : Bool :=
  (s.lookup blobId).isSome

/-- Modelled from the spec: `properties(blobId)` of §4.1. -/
def getBlobProperties (s : Store) (blobId : String) : Except Err BlobProperties :=
  match s.getErr with
  | some e => .error e
  | none =>
    match s.lookup blobId with
    | some c => .ok (s.propsOf blobId c)
    | none => .error (Err.mk ("Blob not found: " ++ blobId))

/-- Modelled from the spec: `signedUrl` of §4.1; the url value itself is
opaque to the core, modelled by a deterministic encoding. -/
def generateSignedUrl (s : Store) (blobId : String) (expiresIn : Nat)
    (permissions : String) : Except Err String :=
  match s.getErr with
  | some e => .error e
  | none =>
    match s.lookup blobId with
    | some _ =>
      .ok ("signed:" ++ blobId ++ ":" ++ toString expiresIn ++ ":" ++ permissions)
    | none => .error (Err.mk ("Blob not found: " ++ blobId))

/-- Modelled from the spec: `delete(blobId)` of §4.1 — `NotFound` when the
tier lacks the blob. -/
def deleteBlob (s : Store) (blobId : String) : Except Err Store :=
  match s.lookup blobId with
  | some _ => .ok { s with blobs := s.blobs.filter (fun p => !(p.1 == blobId)) }
  | none => .error (Err.mk ("Blob not found: " ++ blobId))

end Store

/-- `BsMultiBs` of `src/bs-multi.ts`: one binding of the multi-tier store —
a wrapped store, an optional tier id, a priority, and the read/write
capability flags. -/
structure Binding where
  bs : Store
  id : Option String
  priority : Int
  read : Bool
  write : Bool
deriving DecidableEq, Repr

namespace BsMulti

/-- The comparator `(a, b) => a.priority - b.priority` of the
`readables`/`writables` getters, as the ordering it sorts by. -/
def prioLE (a b : Binding) : Prop :=
  a.priority ≤ b.priority

instance : DecidableRel prioLE := fun a b => by
  unfold prioLE; infer_instance

/-- `get readables()` (`src/bs-multi.ts:367`): filter `_stores` by the
`read` flag, then sort ascending by priority.  JavaScript's
`Array.prototype.sort` is stable, modelled by `List.insertionSort`. -/
def readables (stores : List Binding) : List Binding :=
  List.insertionSort prioLE (stores.filter (fun b => b.read))

/-- `get writables()` (`src/bs-multi.ts:378`). -/
def writables (stores : List Binding) : List Binding :=
  List.insertionSort prioLE (stores.filter (fun b => b.write))

/-- The `for` loop of `init()` (`src/bs-multi.ts:48`), starting at index
`idx`: every binding is replaced by a copy whose `id` is `bs-<index>`. -/
def initFrom (idx : Nat) : List Binding → List Binding
  | [] => []
  | b :: rest => { b with id := some ("bs-" ++ toString idx) } :: initFrom (idx + 1) rest

/-- `init()` (`src/bs-multi.ts:48`). -/
def init (stores : List Binding) : List Binding :=
  initFrom 0 stores

/-- The sequential `for (const readable of this.readables) { try ... catch
{ errors.push(e); continue } }` fallback loop shared by the read
operations: first success wins, otherwise all errors are collected in
priority order. -/
def tryTiers {α : Type} (attempt : Binding → Except Err α) :
    List Binding → Except (List Err) α
  | [] => .error []
  | r :: rs =>
    match attempt r with
    | .ok v => .ok v
    | .error e =>
      match tryTiers attempt rs with
      | .ok v => .ok v
      | .error es => .error (e :: es)

/-- The error reconciliation after a failed fallback loop
(`src/bs-multi.ts:109`–`120` and its clones): if every collected error
message contains `Blob not found`, a fresh `Blob not found: <blobId>` error
is thrown, otherwise `errors[0]` is thrown.  The loop guarantees the list
is non-empty there, so the `headD` default is never used. -/
def reconcile (blobId : String) (errors : List Err) : Err :=
  if (errors.filter isNotFoundMsg).length = errors.length then
    Err.mk ("Blob not found: " ++ blobId)
  else
    errors.headD (Err.mk ("Blob not found: " ++ blobId))

/-- One tier's attempt inside `getBlob`: fetch (forwarding the download
options) and record `readFrom = readable.id ?? ''`
(`src/bs-multi.ts:100`–`101`). -/
def readAttempt (blobId : String) (opts : Option DownloadBlobOptions)
    (r : Binding) : Except Err (Content × BlobProperties × String) :=
  (r.bs.getBlob blobId opts).map (fun cp => (cp.1, cp.2, r.id.getD ""))

/-- One hot-swap caching write, with its error swallowed
(`bs.setBlob(result.content).catch(() => {})`, `src/bs-multi.ts:127`). -/
def cacheWrite (c : Content) (b : Binding) : Binding :=
  match b.bs.setBlob c with
  | .ok sp => { b with bs := sp.1 }
  | .error _ => b

/-- Effect of the hot-swap phase on one binding: the writables whose id
differs from `readFrom` receive the caching write
(`.filter((writable) => writable.id !== readFrom)`,
`src/bs-multi.ts:126`), every other binding is untouched. -/
def hotSwapStep (readFrom : String) (c : Content) (b : Binding) : Binding :=
  if b.write && !(b.id == some readFrom) then cacheWrite c b else b

/-- The hot-swap phase of `getBlob` (`src/bs-multi.ts:122`–`130`): the
parallel, independent caching writes are applied to each binding's own
store. -/
def hotSwap (stores : List Binding) (readFrom : String) (c : Content) :
    List Binding :=
  stores.map (hotSwapStep readFrom c)

/-- `getBlob` (`src/bs-multi.ts:85`–`133`): readable-configuration check,
priority-ordered fallback forwarding the `DownloadBlobOptions` to each
tier, error reconciliation, then hot-swap caching of `result.content` —
for a ranged read, the delivered slice.  Returns the updated binding
sequence together with the caller-visible content and properties. -/
def getBlob (stores : List Binding) (blobId : String)
    (opts : Option DownloadBlobOptions) :
    Except Err (List Binding × Content × BlobProperties) :=
  if (readables stores).isEmpty then
    .error (Err.mk "No readable Bs available")
  else
    match tryTiers (readAttempt blobId opts) (readables stores) with
    | .ok (c, p, readFrom) => .ok (hotSwap stores readFrom c, c, p)
    | .error errs => .error (reconcile blobId errs)

/-- `getBlobStream` (`src/bs-multi.ts:141`–`168`): same fallback and
reconciliation as `getBlob`, no hot-swap; the stream is modelled by the
content it delivers. -/
def getBlobStream (stores : List Binding) (blobId : String) :
    Except Err Content :=
  if (readables stores).isEmpty then
    .error (Err.mk "No readable Bs available")
  else
    match tryTiers (fun r => r.bs.getBlobStream blobId) (readables stores) with
    | .ok c => .ok c
    | .error errs => .error (reconcile blobId errs)

/-- `getBlobProperties` (`src/bs-multi.ts:218`–`245`). -/
def getBlobProperties (stores : List Binding) (blobId : String) :
    Except Err BlobProperties :=
  if (readables stores).isEmpty then
    .error (Err.mk "No readable Bs available")
  else
    match tryTiers (fun r => r.bs.getBlobProperties blobId) (readables stores) with
    | .ok p => .ok p
    | .error errs => .error (reconcile blobId errs)

/-- `generateSignedUrl` (`src/bs-multi.ts:326`–`361`). -/
def generateSignedUrl (stores : List Binding) (blobId : String)
    (expiresIn : Nat) (permissions : String) : Except Err String :=
  if (readables stores).isEmpty then
    .error (Err.mk "No readable Bs available")
  else
    match tryTiers (fun r => r.bs.generateSignedUrl blobId expiresIn permissions)
        (readables stores) with
    | .ok u => .ok u
    | .error errs => .error (reconcile blobId errs)

/-- The loop of `blobExists` (`src/bs-multi.ts:198`–`207`): first tier
reporting existence wins; per-tier errors and `false` answers both just
continue. -/
def blobExistsLoop (blobId : String) : List Binding → Bool
  | [] => false
  | r :: rs =>
    match r.bs.blobExistsE blobId with
    | .ok true => true
    | .ok false => blobExistsLoop blobId rs
    | .error _ => blobExistsLoop blobId rs

/-- `blobExists` (`src/bs-multi.ts:192`–`210`). -/
def blobExists (stores : List Binding) (blobId : String) : Except Err Bool :=
  if (readables stores).isEmpty then
    .error (Err.mk "No readable Bs available")
  else
    .ok (blobExistsLoop blobId (readables stores))

/-- Whether a settled outcome is a fulfillment. -/
def isOkE {α : Type} : Except Err α → Bool
  | .ok _ => true
  | .error _ => false

/-- `Promise.all` over a list of settled outcomes: the first rejection in
list order is surfaced, otherwise the list of values is returned. -/
def allOk {α : Type} : List (Except Err α) → Except Err (List α)
  | [] => .ok []
  | .error e :: _ => .error e
  | .ok a :: rest => (allOk rest).map (fun vs => a :: vs)

/-- `setBlob` (`src/bs-multi.ts:61`–`75`): writable-configuration check,
parallel write to all writables, `return results[0]`.  On success every
writable binding's store has absorbed the write; the error path carries no
state (the claims under verification do not observe post-error state). -/
def setBlob (stores : List Binding) (c : Content) :
    Except Err (List Binding × BlobProperties) :=
  match writables stores with
  | [] => .error (Err.mk "No writable Bs available")
  | w :: ws =>
    match allOk ((w :: ws).map (fun b => b.bs.setBlob c)) with
    | .error e => .error e
    | .ok results =>
      match results with
      | [] => .error (Err.mk "No writable Bs available")
      | r0 :: _ =>
        .ok (stores.map (fun b => if b.write then cacheWrite c b else b), r0.2)

/-- `deleteBlob` (`src/bs-multi.ts:175`–`184`): writable-configuration
check, parallel delete from all writables, any rejection propagates. -/
def deleteBlob (stores : List Binding) (blobId : String) :
    Except Err (List Binding) :=
  match writables stores with
  | [] => .error (Err.mk "No writable Bs available")
  | w :: ws =>
    match allOk ((w :: ws).map (fun b => b.bs.deleteBlob blobId)) with
    | .error e => .error e
    | .ok _ =>
      .ok (stores.map (fun b =>
        if b.write then
          match b.bs.deleteBlob blobId with
          | .ok s2 => { b with bs := s2 }
          | .error _ => b
        else b))

/-- JavaScript truthiness of the `string | undefined` continuation token:
`undefined` and the empty string are falsy. -/
def tokenTruthy : Option String → Bool
  | none => false
  | some t => !(t == "")

/-- The inner `for (const blob of result.blobs)` of `listBlobs`
(`src/bs-multi.ts:272`–`276`): append each blob whose id is not yet in the
map (`Map` iteration order is insertion order, so the map is an append
list). -/
def addBlobs (m : List BlobProperties) (page : List BlobProperties) :
    List BlobProperties :=
  page.foldl
    (fun acc b => if acc.any (fun x => x.blobId == b.blobId) then acc else acc ++ [b])
    m

/-- The `do ... while (continuationToken)` collection loop over one tier
(`src/bs-multi.ts:263`–`282`), consuming the tier's successive page
answers: a rejected page aborts the tier (the `catch` skips its remaining
pages) but everything already in the map stays. -/
def collectTier : List Page → List BlobProperties → List BlobProperties
  | [], m => m
  | pg :: rest, m =>
    match pg with
    | .error _ => m
    | .ok (bs, tok) =>
      let m2 := addBlobs m bs
      if tokenTruthy tok then collectTier rest m2 else m2

/-- The outer `for (const readable of this.readables)` collection loop
(`src/bs-multi.ts:262`–`283`). -/
def collectAll (rs : List Binding) : List BlobProperties :=
  rs.foldl (fun m r => collectTier r.bs.listScript m) []

/-- Lexicographic character-wise comparison, the model of
`localeCompare` ordering non-positively. -/
def charsLE : List Char → List Char → Bool
  | [], _ => true
  | _ :: _, [] => false
  | a :: as, b :: bs =>
    if a.toNat < b.toNat then true
    else if b.toNat < a.toNat then false
    else charsLE as bs

/-- The comparator `(a, b) => a.blobId.localeCompare(b.blobId)`
(`src/bs-multi.ts:290`), modelled by the lexicographic string order. -/
def blobIdLE (a b : BlobProperties) : Prop :=
  charsLE a.blobId.data b.blobId.data = true

instance : DecidableRel blobIdLE := fun a b => by
  unfold blobIdLE; infer_instance

/-- The merged, deduplicated, sorted set `blobs` of `listBlobs`
(`src/bs-multi.ts:286`–`290`). -/
def mergedList (stores : List Binding) : List BlobProperties :=
  List.insertionSort blobIdLE (collectAll (readables stores))

/-- `ListBlobsOptions` of `src/bs.ts`, restricted to the fields `BsMulti`
itself interprets (`prefix` is only forwarded to the underlying stores,
whose listing answers are modelled by their scripts). -/
structure ListOptions where
  maxResults : Option Nat
  continuationToken : Option String
deriving DecidableEq, Repr

/-- `startIndex` of the merged pagination (`src/bs-multi.ts:294`–`302`):
a truthy token is looked up by exact blobId match; `-1` (not found) and a
falsy token both restart from the beginning. -/
def startIndexOf (blobs : List BlobProperties) (tok : Option String) : Nat :=
  match tok with
  | none => 0
  | some t =>
    if t == "" then 0
    else
      match blobs.findIdx? (fun b => b.blobId == t) with
      | some i => i + 1
      | none => 0

/-- The pagination of the merged set (`src/bs-multi.ts:292`–`315`):
`maxResults` defaults to the full length, the page is
`blobs.slice(startIndex, endIndex)`, and the outgoing token is the last
page item's blobId when items remain. -/
def paginate (blobs : List BlobProperties) (opts : ListOptions) :
    List BlobProperties × Option String :=
  let maxResults := opts.maxResults.getD blobs.length
  let startIndex := startIndexOf blobs opts.continuationToken
  let endIndex := Nat.min (startIndex + maxResults) blobs.length
  let pageBlobs := (blobs.drop startIndex).take (endIndex - startIndex)
  let tok :=
    if endIndex < blobs.length then pageBlobs.getLast?.map (fun b => b.blobId)
    else none
  (pageBlobs, tok)

/-- `listBlobs` (`src/bs-multi.ts:254`–`316`): readable-configuration
check, full two-phase collection, then merged pagination. -/
def listBlobs (stores : List Binding) (opts : ListOptions) :
    Except Err (List BlobProperties × Option String) :=
  if (readables stores).isEmpty then
    .error (Err.mk "No readable Bs available")
  else
    .ok (paginate (mergedList stores) opts)

/-- A caller chaining `listBlobs` calls through the returned
`continuationToken` with a fixed page size `K`, concatenating the pages.
`fuel` bounds the number of round trips. -/
def chainList (stores : List Binding) (K : Nat) :
    Option String → Nat → Except Err (List BlobProperties)
  | _, 0 => .ok []
  | tok, fuel + 1 =>
    match listBlobs stores (ListOptions.mk (some K) tok) with
    | .error e => .error e
    | .ok (page, none) => .ok page
    | .ok (page, some t) =>
      match chainList stores K (some t) fuel with
      | .error e => .error e
      | .ok rest => .ok (page ++ rest)

/-! Concrete configurations used to instantiate the verification below. -/

/-- An empty, fault-free store. -/
def emptyStore : Store :=
  { blobs := [], createdAt := 0, getErr := none, setErr := none, listScript := [] }

/-- A store whose read operations reject with `Network timeout`. -/
def faultStore : Store :=
  { emptyStore with getErr := some (Err.mk "Network timeout") }

/-- A store holding the blob `hello`. -/
def helloStore : Store :=
  { emptyStore with blobs := [(blobIdOf "hello", "hello")] }

/-- Two readable tiers: tier 0 lacks the blob (fails `NotFound`), tier 1
fails with a non-NotFound error. -/
def mixedFailStores : List Binding :=
  [Binding.mk emptyStore (some "bs-0") 0 true false,
   Binding.mk faultStore (some "bs-1") 1 true false]

/-- Tier 0 fails with a non-NotFound error, tier 1 holds the blob. -/
def failThenHitStores : List Binding :=
  [Binding.mk faultStore (some "bs-0") 0 true false,
   Binding.mk helloStore (some "bs-1") 1 true false]

/-- Shorthand for list items in the listing scenarios. -/
def bp (s : String) : BlobProperties :=
  { blobId := s, size := 1, createdAt := 0 }

/-- A tier whose listing delivers one page, then errors; a later page would
deliver `zz`. -/
def partialListStore : Store :=
  { emptyStore with
    listScript :=
      [.ok ([bp "a"], some "tk"),
       .error (Err.mk "Storage unavailable"),
       .ok ([bp "zz"], none)] }

/-- A tier whose listing delivers the single blob `b`. -/
def bListStore : Store :=
  { emptyStore with listScript := [.ok ([bp "b"], none)] }

/-- Listing scenario: a tier erroring mid-pagination next to a healthy
tier. -/
def partialListStores : List Binding :=
  [Binding.mk partialListStore (some "bs-0") 0 true false,
   Binding.mk bListStore (some "bs-1") 1 true false]

/-- A read/write cache next to a read-only seed holding the ten-byte blob
`0123456789`, for the ranged-read scenario of the conformance tests. -/
def rangeSeedStores : List Binding :=
  [Binding.mk emptyStore (some "bs-0") 0 true true,
   Binding.mk
     { emptyStore with blobs := [(blobIdOf "0123456789", "0123456789")] }
     (some "bs-1") 1 true false]

/-- The concrete scenario of spec §8: priority 0 read/write cache, empty;
priority 1 read-only seeded with `hello`. -/
def cacheAndSeedStores : List Binding :=
  [Binding.mk emptyStore (some "bs-0") 0 true true,
   Binding.mk helloStore (some "bs-1") 1 true false]

/-- Two listing tiers with overlapping content (`b` occurs in both). -/
def overlapListStores : List Binding :=
  [Binding.mk { emptyStore with listScript := [.ok ([bp "a", bp "b"], none)] }
     (some "bs-0") 0 true false,
   Binding.mk { emptyStore with listScript := [.ok ([bp "b", bp "c"], none)] }
     (some "bs-1") 1 true false]

/-- Two writable tiers distinguishable by their `createdAt` stamp. -/
def twoWriterStores : List Binding :=
  [Binding.mk { emptyStore with createdAt := 1 } (some "bs-0") 0 false true,
   Binding.mk { emptyStore with createdAt := 2 } (some "bs-1") 1 false true]

/-- A binding sequence constructed with a caller-supplied tier id, on which
`init` was never called. -/
def callerIdStores : List Binding :=
  [Binding.mk helloStore (some "t0") 0 true true]

/-- A binding sequence with no ids at all (constructed without ids, `init`
never called). -/
def noIdStores : List Binding :=
  [Binding.mk helloStore none 0 true true]

/-! ## Helper lemmas -/

/-- A successful fallback never comes from an empty readable list. -/
theorem tryTiers_ok_ne_nil {α : Type} (f : Binding → Except Err α)
    {l : List Binding} {v : α} (h : tryTiers f l = .ok v) : l ≠ [] := by
  intro hl
  subst hl
  simp [tryTiers] at h

/-- A successful fallback comes from some tier of the list. -/
theorem tryTiers_ok_mem {α : Type} (f : Binding → Except Err α) :
    ∀ (l : List Binding) (v : α), tryTiers f l = .ok v → ∃ r ∈ l, f r = .ok v := by
  intro l
  induction l with
  | nil => intro v h; simp [tryTiers] at h
  | cons r rs ih =>
    intro v h
    unfold tryTiers at h
    cases hf : f r with
    | ok w =>
      rw [hf] at h
      cases h
      exact ⟨r, List.mem_cons_self r rs, hf⟩
    | error e =>
      rw [hf] at h
      cases hrec : tryTiers f rs with
      | ok w =>
        rw [hrec] at h
        cases h
        obtain ⟨r', hr', hfr'⟩ := ih _ hrec
        exact ⟨r', List.mem_cons_of_mem r hr', hfr'⟩
      | error es => rw [hrec] at h; cases h

/-! ## C1 -/

/-- C1: refuted in the mixed-failure case; evidence for the code bug.  With
tier 0 failing `NotFound` and tier 1 failing `Network timeout`, the
recorded failures are mixed, yet `getBlob`, `getBlobProperties` and
`generateSignedUrl` all surface `errors[0]` — the NotFound error — instead
of the first non-NotFound error (`Network timeout`), contradicting the
code's own comment `Throw first non-"not found" error`. -/
theorem mixed_failure_surfaces_notFound_bug :
    tryTiers (readAttempt "x" none) (readables mixedFailStores)
      = .error [Err.mk ("Blob not found: " ++ "x"), Err.mk "Network timeout"]
  ∧ isNotFoundMsg (Err.mk "Network timeout") = false
  ∧ getBlob mixedFailStores "x" none
      = .error (Err.mk ("Blob not found: " ++ "x"))
  ∧ getBlobProperties mixedFailStores "x" = .error (Err.mk ("Blob not found: " ++ "x"))
  ∧ generateSignedUrl mixedFailStores "x" 60 "read"
      = .error (Err.mk ("Blob not found: " ++ "x")) := by
  refine ⟨by decide, by decide, by decide, by decide, by decide⟩

/-! ## C2 -/

/-- C2 counterexample: the highest-priority readable fails with the
non-NotFound error `Network timeout` while the lower-priority tier holds
the blob, and `getBlob` nevertheless SUCCEEDS with the lower tier's
content, refuting the claim that the call fails with the higher tier's
error. -/
theorem c2_counterexample_fallback_succeeds :
    (readables failThenHitStores).head?.map (fun b => b.bs.getErr)
      = some (some (Err.mk "Network timeout"))
  ∧ getBlob failThenHitStores (blobIdOf "hello") none
      = .ok (failThenHitStores, "hello",
             BlobProperties.mk (blobIdOf "hello") 5 0) := by
  refine ⟨by decide, by decide⟩

/-- C2 amended: when the highest-priority readable binding fails (with any
error, NotFound or not) and the remaining readable tiers produce a
success, `getBlob` succeeds with the lower tier's content; the higher
tier's error is recorded but never surfaced (availability wins over error
precedence). -/
theorem c2_amended_fallback_availability (stores : List Binding)
    (blobId : String) (opts : Option DownloadBlobOptions) (r : Binding)
    (rest : List Binding) (e : Err) (c : Content) (p : BlobProperties)
    (f : String)
    (hr : readables stores = r :: rest)
    (he : r.bs.getBlob blobId opts = .error e)
    (hs : tryTiers (readAttempt blobId opts) rest = .ok (c, p, f)) :
    getBlob stores blobId opts = .ok (hotSwap stores f c, c, p) := by
  unfold getBlob
  rw [hr]
  simp only [List.isEmpty_cons, Bool.false_eq_true, if_false]
  unfold tryTiers
  simp only [readAttempt, he, Except.map, hs]

/-- C2 witness. -/
theorem c2_amended_fallback_availability_witness :
    getBlob failThenHitStores (blobIdOf "hello") none
      = .ok (hotSwap failThenHitStores "bs-1" "hello", "hello",
             BlobProperties.mk (blobIdOf "hello") 5 0) :=
  c2_amended_fallback_availability failThenHitStores (blobIdOf "hello") none
    (Binding.mk faultStore (some "bs-0") 0 true false)
    [Binding.mk helloStore (some "bs-1") 1 true false]
    (Err.mk "Network timeout") "hello"
    (BlobProperties.mk (blobIdOf "hello") 5 0) "bs-1"
    (by decide) (by decide) (by decide)

/-! ## C3 -/

/-- C3 counterexample: tier 0 lists the blob `a` on its first page and
errors on its second page; the merged result nevertheless contains `a`
(partial results are retained, not discarded), alongside the healthy
tier's `b`.  The post-error page `zz` is skipped. -/
theorem c3_counterexample_partial_page_retained :
    listBlobs partialListStores (ListOptions.mk none none)
      = .ok ([bp "a", bp "b"], none) := by
  decide

/-- C3 amended: a readable tier that errors during its own pagination
contributes exactly the blobs of the pages it delivered before the error
— those partial results are retained in the map — while its remaining
pages are skipped; the map accumulated so far is untouched by the error. -/
theorem c3_amended_partial_pages_retained (ps rest : List Page) (e : Err)
    (m : List BlobProperties)
    (h : ∀ pg ∈ ps, ∃ bs tok, pg = .ok (bs, tok) ∧ tokenTruthy tok = true) :
    collectTier (ps ++ .error e :: rest) m = collectTier ps m := by
  induction ps generalizing m with
  | nil => simp [collectTier]
  | cons pg ps ih =>
    obtain ⟨bs, tok, rfl, htok⟩ := h pg (List.mem_cons_self pg ps)
    simp only [List.cons_append, collectTier, htok, if_true]
    exact ih (addBlobs m bs) (fun q hq => h q (List.mem_cons_of_mem _ hq))

/-- C3 witness. -/
theorem c3_amended_partial_pages_retained_witness :
    collectTier
      ([.ok ([bp "a"], some "tk")] ++
        .error (Err.mk "Storage unavailable") :: [.ok ([bp "zz"], none)]) []
      = collectTier [.ok ([bp "a"], some "tk")] []
  ∧ collectTier [.ok ([bp "a"], some "tk")] [] = [bp "a"] := by
  refine ⟨?_, by decide⟩
  exact c3_amended_partial_pages_retained [.ok ([bp "a"], some "tk")]
    [.ok ([bp "zz"], none)] (Err.mk "Storage unavailable") []
    (by intro pg hpg
        simp only [List.mem_singleton] at hpg
        exact ⟨[bp "a"], some "tk", hpg, by decide⟩)

/-! ## C4 -/

/-- C4 counterexample: `init` on a binding carrying the caller-supplied id
`custom` overwrites it with the index-derived `bs-0`, refuting "a
caller-supplied id is preserved". -/
theorem c4_counterexample_id_overwritten :
    (init [Binding.mk emptyStore (some "custom") 0 true true]).map (fun b => b.id)
      = [some "bs-0"]
  ∧ (some "bs-0" : Option String) ≠ some "custom" := by
  refine ⟨by decide, by decide⟩

/-- The ids produced by the initialization loop started at `n`. -/
theorem initFrom_map_id (n : Nat) (l : List Binding) :
    (initFrom n l).map (fun b => b.id)
      = (List.range' n l.length).map (fun i => some ("bs-" ++ toString i)) := by
  induction l generalizing n with
  | nil => rfl
  | cons b rest ih =>
    simp [initFrom, List.range'_succ, ih]

/-- The initialization loop is idempotent. -/
theorem initFrom_idem (n : Nat) (l : List Binding) :
    initFrom n (initFrom n l) = initFrom n l := by
  induction l generalizing n with
  | nil => rfl
  | cons b rest ih => simp [initFrom, ih]

/-- The initialization loop changes no field but `id`. -/
theorem initFrom_fields (n : Nat) (l : List Binding) :
    (initFrom n l).map (fun b => (b.bs, b.priority, b.read, b.write))
      = l.map (fun b => (b.bs, b.priority, b.read, b.write)) := by
  induction l generalizing n with
  | nil => rfl
  | cons b rest ih => simp [initFrom, ih]

/-- C4 amended: `init()` deterministically assigns every binding the
sequence-index-derived id `bs-<index>` unconditionally (overwriting any
caller-supplied id), is idempotent, and changes nothing about the bindings
beyond id assignment. -/
theorem c4_amended_init_spec (stores : List Binding) :
    (init stores).map (fun b => b.id)
      = (List.range stores.length).map (fun i => some ("bs-" ++ toString i))
  ∧ init (init stores) = init stores
  ∧ (init stores).map (fun b => (b.bs, b.priority, b.read, b.write))
      = stores.map (fun b => (b.bs, b.priority, b.read, b.write)) := by
  refine ⟨?_, initFrom_idem 0 stores, initFrom_fields 0 stores⟩
  rw [init, initFrom_map_id, List.range_eq_range']

/-! ## C7 -/

/-- C7: on a configuration without writable bindings, `setBlob` and
`deleteBlob` fail with the no-writable-store error; without readable
bindings, the six read operations fail with the no-readable-store error.
The conclusions hold for every store state, so no underlying store is
consulted: the check is eager. -/
theorem c7_no_tier_configuration_errors (stores : List Binding)
    (c blobId : String) (dopts : Option DownloadBlobOptions)
    (expiresIn : Nat) (permissions : String) (opts : ListOptions) :
    (writables stores = [] →
        setBlob stores c = .error (Err.mk "No writable Bs available")
      ∧ deleteBlob stores blobId = .error (Err.mk "No writable Bs available"))
  ∧ (readables stores = [] →
        getBlob stores blobId dopts
          = .error (Err.mk "No readable Bs available")
      ∧ getBlobStream stores blobId = .error (Err.mk "No readable Bs available")
      ∧ listBlobs stores opts = .error (Err.mk "No readable Bs available")
      ∧ blobExists stores blobId = .error (Err.mk "No readable Bs available")
      ∧ getBlobProperties stores blobId = .error (Err.mk "No readable Bs available")
      ∧ generateSignedUrl stores blobId expiresIn permissions
          = .error (Err.mk "No readable Bs available")) := by
  constructor
  · intro h
    exact ⟨by simp [setBlob, h], by simp [deleteBlob, h]⟩
  · intro h
    refine ⟨?_, ?_, ?_, ?_, ?_, ?_⟩ <;>
      simp [getBlob, getBlobStream, listBlobs, blobExists, getBlobProperties,
        generateSignedUrl, h]

/-- C7 witness: the empty binding sequence has neither writable nor
readable bindings, and every operation fails with the corresponding
configuration error. -/
theorem c7_no_tier_configuration_errors_witness :
    setBlob [] "c" = .error (Err.mk "No writable Bs available")
  ∧ deleteBlob [] "x" = .error (Err.mk "No writable Bs available")
  ∧ getBlob [] "x" none = .error (Err.mk "No readable Bs available")
  ∧ getBlobStream [] "x" = .error (Err.mk "No readable Bs available")
  ∧ listBlobs [] (ListOptions.mk none none)
      = .error (Err.mk "No readable Bs available")
  ∧ blobExists [] "x" = .error (Err.mk "No readable Bs available")
  ∧ getBlobProperties [] "x" = .error (Err.mk "No readable Bs available")
  ∧ generateSignedUrl [] "x" 60 "read"
      = .error (Err.mk "No readable Bs available") := by
  have h := c7_no_tier_configuration_errors [] "c" "x" none 60 "read"
    (ListOptions.mk none none)
  obtain ⟨hw, hr⟩ := h
  obtain ⟨h1, h2⟩ := hw rfl
  obtain ⟨h3, h4, h5, h6, h7, h8⟩ := hr rfl
  exact ⟨h1, h2, h3, h4, h5, h6, h7, h8⟩

/-! ## C8 -/

instance : IsTotal Binding prioLE :=
  ⟨fun a b => Int.le_total a.priority b.priority⟩

instance : IsTrans Binding prioLE :=
  ⟨fun _ _ _ hab hbc => le_trans hab hbc⟩

/-- Inserting a binding of a different priority does not disturb the
filter on a priority class. -/
theorem filter_orderedInsert_prio_ne (p : Int) (x : Binding)
    (hx : ¬ x.priority = p) (l : List Binding) :
    (l.orderedInsert prioLE x).filter (fun b => b.priority == p)
      = l.filter (fun b => b.priority == p) := by
  induction l with
  | nil => simp [List.orderedInsert, hx]
  | cons b rest ih =>
    rw [List.orderedInsert]
    by_cases h : prioLE x b
    · rw [if_pos h]
      simp [List.filter_cons, hx]
    · rw [if_neg h]
      simp only [List.filter_cons, ih]

/-- Inserting a binding of priority `p` into a list places it before every
later element of its priority class:  the skipped proper prefix consists of
strictly smaller priorities. -/
theorem filter_orderedInsert_prio_eq (p : Int) (x : Binding)
    (hx : x.priority = p) (l : List Binding) :
    (l.orderedInsert prioLE x).filter (fun b => b.priority == p)
      = x :: l.filter (fun b => b.priority == p) := by
  induction l with
  | nil => simp [List.orderedInsert, hx]
  | cons b rest ih =>
    rw [List.orderedInsert]
    by_cases h : prioLE x b
    · rw [if_pos h]
      simp [List.filter_cons, hx]
    · rw [if_neg h]
      have hb : ¬ b.priority = p := by
        intro hbp
        exact h (show prioLE x b by unfold prioLE; omega)
      simp only [List.filter_cons, ih]
      simp [hb]

/-- Stability of the insertion sort by priority: each priority class keeps
its original order. -/
theorem filter_insertionSort_prio (p : Int) (l : List Binding) :
    (List.insertionSort prioLE l).filter (fun b => b.priority == p)
      = l.filter (fun b => b.priority == p) := by
  induction l with
  | nil => rfl
  | cons a rest ih =>
    rw [List.insertionSort]
    by_cases h : a.priority = p
    · rw [filter_orderedInsert_prio_eq p a h, ih, List.filter_cons]
      simp [h]
    · rw [filter_orderedInsert_prio_ne p a h, ih, List.filter_cons]
      simp [h]

/-- C8: `readables()` and `writables()` are recomputed from the binding
sequence as pure functions of it, contain exactly the bindings with the
respective flag (as a permutation, so same multiplicity), are sorted
ascending by priority, and each equal-priority class appears in the
original construction order (stability). -/
theorem c8_views_filter_sort_stable (stores : List Binding) :
    (readables stores).Perm (stores.filter (fun b => b.read))
  ∧ (readables stores).Sorted prioLE
  ∧ (∀ p : Int, (readables stores).filter (fun b => b.priority == p)
      = stores.filter (fun b => b.read && b.priority == p))
  ∧ (writables stores).Perm (stores.filter (fun b => b.write))
  ∧ (writables stores).Sorted prioLE
  ∧ (∀ p : Int, (writables stores).filter (fun b => b.priority == p)
      = stores.filter (fun b => b.write && b.priority == p)) := by
  refine ⟨List.perm_insertionSort prioLE _, List.sorted_insertionSort prioLE _, ?_,
    List.perm_insertionSort prioLE _, List.sorted_insertionSort prioLE _, ?_⟩
  · intro p
    rw [readables, filter_insertionSort_prio, List.filter_filter]
    exact List.filter_congr (fun a _ => Bool.and_comm _ _)
  · intro p
    rw [writables, filter_insertionSort_prio, List.filter_filter]
    exact List.filter_congr (fun a _ => Bool.and_comm _ _)

/-! ## C5 -/

/-- A store without injected write fault accepts every write. -/
theorem store_setBlob_ok_of_no_fault (s : Store) (c : Content)
    (h : s.setErr = none) : ∃ s2 p, s.setBlob c = .ok (s2, p) := by
  unfold Store.setBlob
  rw [h]
  cases hl : s.lookup (blobIdOf c) with
  | none =>
    refine ⟨{ s with blobs := s.blobs ++ [(blobIdOf c, c)] },
      s.propsOf (blobIdOf c) c, ?_⟩
    simp [hl, h]
  | some c0 =>
    refine ⟨s, s.propsOf (blobIdOf c) c0, ?_⟩
    simp [hl, h]

/-- After a successful write the blob is present. -/
theorem store_setBlob_exists {s s2 : Store} {c : Content} {p : BlobProperties}
    (h : s.setBlob c = .ok (s2, p)) : s2.blobExists (blobIdOf c) = true := by
  unfold Store.setBlob at h
  cases hse : s.setErr with
  | some e => rw [hse] at h; cases h
  | none =>
    rw [hse] at h
    cases hl : s.lookup (blobIdOf c) with
    | some c0 =>
      simp only [hl] at h
      cases h
      unfold Store.blobExists
      rw [hl]
      rfl
    | none =>
      simp only [hl] at h
      cases h
      unfold Store.blobExists Store.lookup
      unfold Store.lookup at hl
      rw [List.find?_append]
      cases hf : s.blobs.find? (fun q => q.1 == blobIdOf c) with
      | some q => rw [hf] at hl; simp at hl
      | none => simp [List.find?]

/-- C5 counterexample: a ranged read (`start 2, end 5` of `0123456789`,
the scenario of the conformance tests) succeeds via tier `bs-1` with the
partial slice `234`; the hot-swap caches that slice — the write succeeds
and files it under the slice's own digest — yet the priority-0 writable
afterwards still reports `blobExists = false` for the requested blobId,
refuting the claim's `blobExists(id) == true` conjunct. -/
theorem c5_counterexample_ranged_read_caches_slice :
    getBlob rangeSeedStores (blobIdOf "0123456789")
        (some (DownloadBlobOptions.mk (some (ByteRange.mk 2 (some 5)))))
      = .ok (hotSwap rangeSeedStores "bs-1" "234", "234",
             BlobProperties.mk (blobIdOf "0123456789") 10 0)
  ∧ (hotSwap rangeSeedStores "bs-1" "234").map
        (fun b => b.bs.blobExists (blobIdOf "0123456789"))
      = [false, true]
  ∧ (hotSwap rangeSeedStores "bs-1" "234").map
        (fun b => b.bs.blobExists (blobIdOf "234"))
      = [true, false] := by
  refine ⟨by decide, by decide, by decide⟩

/-- C5 amended: when `getBlob` succeeds via the tier whose recorded
identifier is `T`, the caller-visible result is the fetched content and
properties — independent of any cache-write failures, which are swallowed
— and the returned state has every binding passed through `hotSwapStep`:
each writable binding with id ≠ `T` receives the caching `setBlob` of the
served content, while every other binding is untouched.  Provided such a
cache write is fault-free AND the served content's digest equals the
requested blobId — the content-addressing invariant, which holds for
full-content reads but fails for proper byte-range reads, whose slice is
cached under the slice's own digest — that binding afterwards reports
`blobExists blobId = true`.  In the sequential embedding the updated state
is part of the returned value, so the call completes only after the
caching attempts have. -/
theorem c5_hotswap_writes_all_but_server (stores : List Binding)
    (blobId : String) (opts : Option DownloadBlobOptions) (c : Content)
    (p : BlobProperties) (T : String)
    (hs : tryTiers (readAttempt blobId opts) (readables stores) = .ok (c, p, T))
    (hinv : blobIdOf c = blobId) :
    getBlob stores blobId opts = .ok (stores.map (hotSwapStep T c), c, p)
  ∧ (∀ b ∈ stores, b.write = true → b.id ≠ some T →
        hotSwapStep T c b = cacheWrite c b
      ∧ (b.bs.setErr = none →
          (cacheWrite c b).bs.blobExists blobId = true))
  ∧ (∀ b ∈ stores, (b.write = true → b.id = some T) →
        hotSwapStep T c b = b) := by
  have hne : readables stores ≠ [] := tryTiers_ok_ne_nil _ hs
  have hemp : (readables stores).isEmpty = false := by
    cases h' : readables stores with
    | nil => exact absurd h' hne
    | cons a l => rfl
  refine ⟨?_, ?_, ?_⟩
  · unfold getBlob
    rw [hemp, hs]
    rfl
  · intro b _ hw hid
    constructor
    · simp [hotSwapStep, hw, hid]
    · intro hserr
      obtain ⟨s2, p2, hsb⟩ := store_setBlob_ok_of_no_fault b.bs c hserr
      unfold cacheWrite
      rw [hsb, ← hinv]
      exact store_setBlob_exists hsb
  · intro b _ himp
    by_cases hw : b.write = true
    · have hid := himp hw
      simp [hotSwapStep, hid]
    · simp only [Bool.not_eq_true] at hw
      simp [hotSwapStep, hw]

/-- C5 witness: the concrete scenario of spec §8 — tier 0 is an empty
read/write cache, tier 1 a read-only seed holding `hello`; the
full-content fetch is served by `bs-1`, and afterwards the cache reports
the requested blobId as existing. -/
theorem c5_hotswap_writes_all_but_server_witness :
    tryTiers (readAttempt (blobIdOf "hello") none) (readables cacheAndSeedStores)
      = .ok ("hello", BlobProperties.mk (blobIdOf "hello") 5 0, "bs-1")
  ∧ getBlob cacheAndSeedStores (blobIdOf "hello") none
      = .ok (cacheAndSeedStores.map (hotSwapStep "bs-1" "hello"), "hello",
             BlobProperties.mk (blobIdOf "hello") 5 0)
  ∧ (cacheWrite "hello"
        (Binding.mk emptyStore (some "bs-0") 0 true true)).bs.blobExists
      (blobIdOf "hello") = true := by
  have h : tryTiers (readAttempt (blobIdOf "hello") none)
      (readables cacheAndSeedStores)
      = .ok ("hello", BlobProperties.mk (blobIdOf "hello") 5 0, "bs-1") := by
    decide
  exact ⟨h,
    (c5_hotswap_writes_all_but_server cacheAndSeedStores (blobIdOf "hello")
      none "hello" (BlobProperties.mk (blobIdOf "hello") 5 0) "bs-1" h rfl).1,
    by decide⟩

/-! ## C9 -/

/-- `allOk` succeeds when every outcome is a fulfillment. -/
theorem allOk_ok_of_all {α : Type} :
    ∀ es : List (Except Err α), (∀ x ∈ es, isOkE x = true) →
      ∃ vs, allOk es = .ok vs := by
  intro es
  induction es with
  | nil => intro _; exact ⟨[], rfl⟩
  | cons x rest ih =>
    intro h
    cases x with
    | error e =>
      have hx := h _ (List.mem_cons_self _ _)
      simp [isOkE] at hx
    | ok a =>
      obtain ⟨vs, hvs⟩ := ih (fun y hy => h y (List.mem_cons_of_mem _ hy))
      exact ⟨a :: vs, by simp [allOk, hvs, Except.map]⟩

/-- C9: when all parallel writes succeed, `setBlob` deterministically
returns `results[0]` — the `BlobProperties` produced by the first writable
binding of the priority-sorted writables view — after every writable
binding's store has absorbed the write. -/
theorem c9_setBlob_returns_first_writable (stores : List Binding)
    (c : Content) (w : Binding) (ws : List Binding) (s : Store)
    (p : BlobProperties)
    (hw : writables stores = w :: ws)
    (h0 : w.bs.setBlob c = .ok (s, p))
    (htail : ∀ b ∈ ws, isOkE (b.bs.setBlob c) = true) :
    setBlob stores c
      = .ok (stores.map (fun b => if b.write then cacheWrite c b else b), p) := by
  unfold setBlob
  rw [hw]
  obtain ⟨vs, hvs⟩ := allOk_ok_of_all (ws.map (fun b => b.bs.setBlob c))
    (by
      intro x hx
      obtain ⟨b, hb, rfl⟩ := List.mem_map.mp hx
      exact htail b hb)
  simp [allOk, h0, hvs, Except.map]

/-- C9 witness: two writable tiers distinguishable by `createdAt`; the
returned properties are those of the priority-0 writer (`createdAt = 1`),
not the priority-1 writer (`createdAt = 2`). -/
theorem c9_setBlob_returns_first_writable_witness :
    setBlob twoWriterStores "c"
      = .ok (twoWriterStores.map
               (fun b => if b.write then cacheWrite "c" b else b),
             BlobProperties.mk (blobIdOf "c") 1 1) :=
  c9_setBlob_returns_first_writable twoWriterStores "c"
    (Binding.mk { emptyStore with createdAt := 1 } (some "bs-0") 0 false true)
    [Binding.mk { emptyStore with createdAt := 2 } (some "bs-1") 1 false true]
    { emptyStore with createdAt := 1, blobs := [(blobIdOf "c", "c")] }
    (BlobProperties.mk (blobIdOf "c") 1 1)
    (by decide) (by decide) (by decide)

/-! ## C10 -/

/-- C10 counterexample: a binding sequence constructed with the
caller-supplied id `t0` on which `init` was never called (had it been, the
id would be `bs-0`).  Its binding id is not `undefined`, and the
hot-swap step of a successful `getBlob` already excludes the serving
binding (the state is returned unchanged), refuting both "every binding's
id is undefined" and "the exclusion takes effect only after init()". -/
theorem c10_counterexample_caller_supplied_ids :
    callerIdStores.map (fun b => b.id) = [some "t0"]
  ∧ (init callerIdStores).map (fun b => b.id) = [some "bs-0"]
  ∧ getBlob callerIdStores (blobIdOf "hello") none
      = .ok (callerIdStores, "hello",
             BlobProperties.mk (blobIdOf "hello") 5 0) := by
  refine ⟨by decide, by decide, by decide⟩

/-- C10 amended: when every binding's id is unset (no caller-supplied ids,
`init` never called), the serving tier of a successful `getBlob` is
recorded as the empty string, and the hot-swap step issues the caching
write to every writable binding — including the binding that served the
read, since `undefined !== ''`. -/
theorem c10_amended_unset_ids_cache_everywhere (stores : List Binding)
    (blobId : String) (opts : Option DownloadBlobOptions) (c : Content)
    (p : BlobProperties) (T : String)
    (hids : ∀ b ∈ stores, b.id = none)
    (hs : tryTiers (readAttempt blobId opts) (readables stores)
      = .ok (c, p, T)) :
    T = ""
  ∧ hotSwap stores T c
      = stores.map (fun b => if b.write then cacheWrite c b else b) := by
  obtain ⟨r, hrmem, hr⟩ := tryTiers_ok_mem _ _ _ hs
  have hrs : r ∈ stores := by
    have h1 : r ∈ stores.filter (fun b => b.read) :=
      ((List.perm_insertionSort prioLE _).mem_iff).mp hrmem
    exact (List.mem_filter.mp h1).1
  have hid : r.id = none := hids r hrs
  have hT : T = "" := by
    unfold readAttempt at hr
    cases hg : r.bs.getBlob blobId opts with
    | error e => rw [hg] at hr; simp [Except.map] at hr
    | ok cp =>
      rw [hg] at hr
      simp only [Except.map, Except.ok.injEq] at hr
      have h3 := congrArg (fun t => t.2.2) hr
      simp only at h3
      rw [hid] at h3
      exact h3.symm
  subst hT
  refine ⟨rfl, ?_⟩
  unfold hotSwap
  apply List.map_congr_left
  intro b hb
  have hbid : b.id = none := hids b hb
  simp [hotSwapStep, hbid]

/-- C10 witness: a single read/write binding without id holding `hello`;
the serving tier is recorded as `''` and the hot-swap writes to every
writable binding, the serving one included. -/
theorem c10_amended_unset_ids_cache_everywhere_witness :
    tryTiers (readAttempt (blobIdOf "hello") none) (readables noIdStores)
      = .ok ("hello", BlobProperties.mk (blobIdOf "hello") 5 0, "")
  ∧ ("" : String) = ""
  ∧ hotSwap noIdStores "" "hello"
      = noIdStores.map (fun b => if b.write then cacheWrite "hello" b else b) := by
  have h : tryTiers (readAttempt (blobIdOf "hello") none) (readables noIdStores)
      = .ok ("hello", BlobProperties.mk (blobIdOf "hello") 5 0, "") := by
    decide
  have h2 := c10_amended_unset_ids_cache_everywhere noIdStores (blobIdOf "hello")
    none "hello" (BlobProperties.mk (blobIdOf "hello") 5 0) "" (by decide) h
  exact ⟨h, h2.1, h2.2⟩

/-! ## C6 -/

/-- `charsLE` is total. -/
theorem charsLE_total : ∀ xs ys : List Char,
    charsLE xs ys = true ∨ charsLE ys xs = true := by
  intro xs
  induction xs with
  | nil => intro ys; exact Or.inl rfl
  | cons a as ih =>
    intro ys
    cases ys with
    | nil => exact Or.inr rfl
    | cons b bs =>
      by_cases hab : a.toNat < b.toNat
      · left; simp [charsLE, hab]
      · by_cases hba : b.toNat < a.toNat
        · right; simp [charsLE, hba]
        · cases ih bs with
          | inl h => left; simp [charsLE, hab, hba, h]
          | inr h => right; simp [charsLE, hab, hba, h]

/-- `charsLE` is transitive. -/
theorem charsLE_trans : ∀ xs ys zs : List Char,
    charsLE xs ys = true → charsLE ys zs = true → charsLE xs zs = true := by
  intro xs
  induction xs with
  | nil => intro ys zs _ _; rfl
  | cons a as ih =>
    intro ys zs hxy hyz
    cases ys with
    | nil => simp [charsLE] at hxy
    | cons b bs =>
      cases zs with
      | nil => simp [charsLE] at hyz
      | cons c cs =>
        simp only [charsLE] at hxy hyz ⊢
        by_cases hab : a.toNat < b.toNat
        · by_cases hbc : b.toNat < c.toNat
          · simp [show a.toNat < c.toNat by omega]
          · simp only [hbc, if_false] at hyz
            by_cases hcb : c.toNat < b.toNat
            · simp [hcb] at hyz
            · simp [show a.toNat < c.toNat by omega]
        · simp only [hab, if_false] at hxy
          by_cases hba : b.toNat < a.toNat
          · simp [hba] at hxy
          · simp only [hba, if_false] at hxy
            by_cases hbc : b.toNat < c.toNat
            · simp [show a.toNat < c.toNat by omega]
            · simp only [hbc, if_false] at hyz
              by_cases hcb : c.toNat < b.toNat
              · simp [hcb] at hyz
              · rw [if_neg hcb] at hyz
                have hac : ¬ a.toNat < c.toNat := by omega
                have hca : ¬ c.toNat < a.toNat := by omega
                simp [hac, hca, ih bs cs hxy hyz]

instance : IsTotal BlobProperties blobIdLE :=
  ⟨fun a b => charsLE_total a.blobId.data b.blobId.data⟩

instance : IsTrans BlobProperties blobIdLE :=
  ⟨fun _ _ _ hab hbc => charsLE_trans _ _ _ hab hbc⟩

/-- One step of the per-page accumulation. -/
theorem addBlobs_cons (m : List BlobProperties) (b : BlobProperties)
    (page : List BlobProperties) :
    addBlobs m (b :: page)
      = addBlobs (if m.any (fun x => x.blobId == b.blobId) then m
                  else m ++ [b]) page := rfl

/-- The accumulation preserves distinctness of blob ids (the `Map.has`
check drops later duplicates). -/
theorem addBlobs_nodup (page : List BlobProperties) :
    ∀ m : List BlobProperties, (m.map (fun b => b.blobId)).Nodup →
      ((addBlobs m page).map (fun b => b.blobId)).Nodup := by
  induction page with
  | nil => intro m h; exact h
  | cons b page ih =>
    intro m h
    rw [addBlobs_cons]
    by_cases hany : m.any (fun x => x.blobId == b.blobId) = true
    · rw [if_pos hany]
      exact ih m h
    · rw [if_neg hany]
      apply ih
      rw [List.map_append, List.nodup_append]
      refine ⟨h, List.nodup_singleton _, ?_⟩
      intro x hx hxb
      simp only [List.map_cons, List.map_nil, List.mem_singleton] at hxb
      subst hxb
      obtain ⟨y, hy, hyx⟩ := List.mem_map.mp hx
      have hfalse : m.any (fun x => x.blobId == b.blobId) = false :=
        Bool.eq_false_iff.mpr hany
      rw [List.any_eq_false] at hfalse
      have := hfalse y hy
      simp only [beq_iff_eq] at this
      exact this hyx

/-- Collecting one tier preserves distinctness of blob ids. -/
theorem collectTier_nodup (script : List Page) :
    ∀ m : List BlobProperties, (m.map (fun b => b.blobId)).Nodup →
      ((collectTier script m).map (fun b => b.blobId)).Nodup := by
  induction script with
  | nil => intro m h; exact h
  | cons pg rest ih =>
    intro m h
    cases pg with
    | error e => exact h
    | ok pr =>
      obtain ⟨bs, tok⟩ := pr
      simp only [collectTier]
      split
      · exact ih _ (addBlobs_nodup bs m h)
      · exact addBlobs_nodup bs m h

/-- The merged collection has pairwise distinct blob ids. -/
theorem collectAll_nodup (rs : List Binding) :
    ((collectAll rs).map (fun b => b.blobId)).Nodup := by
  suffices h : ∀ m : List BlobProperties, (m.map (fun b => b.blobId)).Nodup →
      (((rs.foldl (fun m r => collectTier r.bs.listScript m) m)).map
        (fun b => b.blobId)).Nodup by
    exact h [] (by simp)
  induction rs with
  | nil => intro m h; exact h
  | cons r rs ih =>
    intro m h
    exact ih _ (collectTier_nodup _ _ h)

/-- The sorted merged set has pairwise distinct blob ids. -/
theorem mergedList_nodup (stores : List Binding) :
    ((mergedList stores).map (fun b => b.blobId)).Nodup := by
  have hperm :=
    (List.perm_insertionSort blobIdLE (collectAll (readables stores))).map
      (fun b => b.blobId)
  exact hperm.nodup_iff.mpr (collectAll_nodup _)

/-- In a list with distinct blob ids, looking up the id of the element at
position `j` finds exactly position `j` (stated for an arbitrary start
offset of `findIdx?`). -/
theorem findIdx?_blobId_getElem (l : List BlobProperties)
    (hnd : (l.map (fun b => b.blobId)).Nodup) (j : Nat) (hj : j < l.length) :
    ∀ i : Nat,
      List.findIdx? (fun b => b.blobId == l[j].blobId) l i = some (i + j) := by
  induction l generalizing j with
  | nil => simp at hj
  | cons a l ih =>
    intro i
    cases j with
    | zero =>
      simp [List.findIdx?_cons]
    | succ j =>
      have hj' : j < l.length := by
        simpa using hj
      simp only [List.map_cons, List.nodup_cons] at hnd
      have hmem : l[j].blobId ∈ l.map (fun b => b.blobId) :=
        List.mem_map.mpr ⟨l[j], List.getElem_mem hj', rfl⟩
      have hne : ¬ a.blobId = (a :: l)[j + 1].blobId := by
        simp only [List.getElem_cons_succ]
        intro hcontr
        exact hnd.1 (hcontr ▸ hmem)
      rw [List.findIdx?_cons, if_neg (by simpa using hne)]
      have := ih hnd.2 j hj' (i + 1)
      simp only [List.getElem_cons_succ]
      rw [this]
      congr 1
      omega

/-- The start index decoded from the blobId of the element at position
`j`. -/
theorem startIndexOf_getElem (l : List BlobProperties)
    (hnd : (l.map (fun b => b.blobId)).Nodup) (j : Nat) (hj : j < l.length)
    (hne : l[j].blobId ≠ "") :
    startIndexOf l (some l[j].blobId) = j + 1 := by
  have h1 : startIndexOf l (some l[j].blobId)
      = if (l[j].blobId == "") = true then 0
        else
          match List.findIdx? (fun b => b.blobId == l[j].blobId) l with
          | some i => i + 1
          | none => 0 := rfl
  rw [h1, if_neg (by simpa using hne), findIdx?_blobId_getElem l hnd j hj 0]
  simp

/-- A token matching no blobId restarts pagination from the beginning. -/
theorem startIndexOf_not_found (l : List BlobProperties) (t : String)
    (hmem : ∀ x ∈ l, x.blobId ≠ t) :
    startIndexOf l (some t) = 0 := by
  have h1 : startIndexOf l (some t)
      = if (t == "") = true then 0
        else
          match List.findIdx? (fun b => b.blobId == t) l with
          | some i => i + 1
          | none => 0 := rfl
  rw [h1]
  by_cases h0 : (t == "") = true
  · rw [if_pos h0]
  · rw [if_neg h0,
      List.findIdx?_eq_none_iff.mpr (fun x hx => by simpa using hmem x hx)]

/-- The last element of the page starting at `i` with size `K`. -/
theorem getLast?_drop_take (l : List BlobProperties) (i K : Nat) (hK : 1 ≤ K)
    (h : i + K ≤ l.length) :
    ((l.drop i).take K).getLast? = l[i + K - 1]? := by
  rw [List.getLast?_eq_getElem?]
  have hlen : ((l.drop i).take K).length = K := by
    rw [List.length_take, List.length_drop]
    exact min_eq_left (by omega)
  rw [hlen, List.getElem?_take, if_pos (by omega), List.getElem?_drop]
  congr 1
  omega

/-- Characterization of the merged pagination at a decoded start index. -/
theorem paginate_at (l : List BlobProperties) (K : Nat) (tok : Option String)
    (i : Nat) (hi : startIndexOf l tok = i) :
    paginate l (ListOptions.mk (some K) tok)
      = ((l.drop i).take (Nat.min (i + K) l.length - i),
         if i + K < l.length
         then ((l.drop i).take (Nat.min (i + K) l.length - i)).getLast?.map
           (fun b => b.blobId)
         else none) := by
  unfold paginate
  simp only [Option.getD, hi]
  congr 1
  have hiff : ((i + K).min l.length < l.length) ↔ (i + K < l.length) := by
    unfold Nat.min
    omega
  rw [if_congr hiff rfl rfl]

/-- Pagination states agreeing on the decoded start index paginate
identically. -/
theorem paginate_startIndex_congr (l : List BlobProperties) (m : Option Nat)
    (tok1 tok2 : Option String)
    (h : startIndexOf l tok1 = startIndexOf l tok2) :
    paginate l (ListOptions.mk m tok1) = paginate l (ListOptions.mk m tok2) := by
  unfold paginate
  rw [show (ListOptions.mk m tok1).continuationToken = tok1 from rfl,
      show (ListOptions.mk m tok2).continuationToken = tok2 from rfl, h]

/-- The chained pagination started at the state whose decoded start index
is `i` returns exactly the merged set from position `i` on. -/
theorem chainList_from (stores : List Binding) (K : Nat) (hK : 1 ≤ K)
    (hemp : (readables stores).isEmpty = false)
    (hne : ∀ x ∈ mergedList stores, x.blobId ≠ "") :
    ∀ (fuel : Nat) (tok : Option String) (i : Nat),
      startIndexOf (mergedList stores) tok = i →
      (mergedList stores).length - i ≤ fuel →
      chainList stores K tok fuel = .ok ((mergedList stores).drop i) := by
  intro fuel
  induction fuel with
  | zero =>
    intro tok i hi hf
    rw [List.drop_eq_nil_of_le (by omega)]
    rfl
  | succ fuel ih =>
    intro tok i hi hf
    set l := mergedList stores with hldef
    have hlist : listBlobs stores (ListOptions.mk (some K) tok)
        = .ok (paginate l (ListOptions.mk (some K) tok)) := by
      unfold listBlobs
      rw [hemp]
      rfl
    unfold chainList
    rw [hlist]
    by_cases hcase : i + K < l.length
    · have hik : i + K ≤ l.length := le_of_lt hcase
      have hmin : (i + K).min l.length = i + K := by
        unfold Nat.min
        omega
      have hsub : (i + K).min l.length - i = K := by
        rw [hmin]
        omega
      have hj : i + K - 1 < l.length := by omega
      have hpag := paginate_at l K tok i hi
      rw [hsub, if_pos hcase] at hpag
      have hlast : ((l.drop i).take K).getLast? = some (l.get ⟨i + K - 1, hj⟩) := by
        rw [getLast?_drop_take l i K hK hik, List.getElem?_eq_getElem hj]
        rfl
      rw [hlast] at hpag
      rw [hpag]
      have htne : (l.get ⟨i + K - 1, hj⟩).blobId ≠ "" :=
        hne _ (List.get_mem l (i + K - 1) hj)
      have hstart : startIndexOf l (some (l.get ⟨i + K - 1, hj⟩).blobId) = i + K := by
        have hh := startIndexOf_getElem l (hldef ▸ mergedList_nodup stores)
          (i + K - 1) hj htne
        exact hh.trans (by omega)
      have hrec := ih (some (l.get ⟨i + K - 1, hj⟩).blobId) (i + K) hstart (by omega)
      simp only [Option.map_some', hrec]
      have hjoin : (l.drop i).take K ++ l.drop (i + K) = l.drop i := by
        rw [show l.drop (i + K) = (l.drop i).drop K from (List.drop_drop K i l).symm]
        exact List.take_append_drop K (l.drop i)
      rw [hjoin]
    · have hmin : (i + K).min l.length = l.length := by
        unfold Nat.min
        omega
      have hpag := paginate_at l K tok i hi
      rw [hmin, if_neg hcase] at hpag
      have hpage : (l.drop i).take (l.length - i) = l.drop i := by
        apply List.take_of_length_le
        rw [List.length_drop]
      rw [hpage] at hpag
      simp only [hpag]

/-- C6: the merged, deduplicated set `listBlobs` pages over has pairwise
distinct blob ids and is sorted by blobId; for every page size `K ≥ 1`,
chaining `listBlobs` calls through the returned `continuationToken` (the
blobId of the last item of each page) reproduces that set exactly once,
with no duplicates and no omissions; and a continuation token matching no
blobId in the merged set restarts pagination from the beginning instead of
failing. -/
theorem c6_pagination_chain_exact (stores : List Binding) (K fuel : Nat)
    (hK : 1 ≤ K)
    (hr : readables stores ≠ [])
    (hne : ∀ x ∈ mergedList stores, x.blobId ≠ "")
    (hfuel : (mergedList stores).length ≤ fuel) :
    chainList stores K none fuel = .ok (mergedList stores)
  ∧ ((mergedList stores).map (fun b => b.blobId)).Nodup
  ∧ (mergedList stores).Sorted blobIdLE
  ∧ (∀ t : String, (∀ x ∈ mergedList stores, x.blobId ≠ t) →
      listBlobs stores (ListOptions.mk (some K) (some t))
        = listBlobs stores (ListOptions.mk (some K) none)) := by
  have hemp : (readables stores).isEmpty = false := by
    cases h' : readables stores with
    | nil => exact absurd h' hr
    | cons a lrest => rfl
  refine ⟨?_, mergedList_nodup stores, List.sorted_insertionSort blobIdLE _, ?_⟩
  · have h := chainList_from stores K hK hemp hne fuel none 0 rfl (by omega)
    simpa using h
  · intro t ht
    unfold listBlobs
    rw [hemp]
    simp only [Bool.false_eq_true, if_false]
    congr 1
    exact paginate_startIndex_congr _ _ _ _ (startIndexOf_not_found _ _ ht)

/-- C6 witness: two tiers with overlapping listings (`b` appears in both);
the merged set is `a, b, c` — deduplicated and sorted — and chaining pages
of size 2 reproduces it exactly; an unknown token restarts. -/
theorem c6_pagination_chain_exact_witness :
    mergedList overlapListStores = [bp "a", bp "b", bp "c"]
  ∧ chainList overlapListStores 2 none 3 = .ok (mergedList overlapListStores)
  ∧ listBlobs overlapListStores (ListOptions.mk (some 2) (some "zz"))
      = listBlobs overlapListStores (ListOptions.mk (some 2) none) := by
  have h := c6_pagination_chain_exact overlapListStores 2 3 (by omega)
    (by decide) (by decide) (by decide)
  exact ⟨by decide, h.1, h.2.2.2 "zz" (by decide)⟩

end BsMulti

end Bs
